import Mathlib

/-!
Verification of the interactive geometry engine of the screenshot
element-markup tool (AnnotationCanvas.tsx, ElementList.tsx, gridUtils).

Numbers: JavaScript floating-point arithmetic is embedded as exact
rational arithmetic over `ℚ`.  `Math.round` becomes `jsRound`
(`⌊q + 1/2⌋`, which agrees with JavaScript on halves), `Math.max`/`Math.min`
become `max`/`min`, and `Array.prototype.reduce((a,b) => a+b, 0)` becomes
`List.sum`.
-/

namespace Markup

/-- `bbox {x, y, width, height}` of an element, image-space pixels
(interface `BBox` in types). -/
structure BBox where
  x : ℚ
  y : ℚ
  width : ℚ
  height : ℚ
deriving Repr, DecidableEq

/-- An icon placed inside an icon-container element:
`{elementId, centerX, centerY, label?}` offsets relative to the container's
bbox origin (interface `IconDefinition`). -/
structure IconDefinition where
  elementId : String
  centerX : ℚ
  centerY : ℚ
  label : Option String := none
deriving Repr, DecidableEq

/-- One annotated region (interface `UIElement`).  The TypeScript
declaration file is not part of the source tree; the fields below are the
ones the source components read or write (AnnotationCanvas.tsx,
ElementList.tsx) together with the data model of the design document.
`type` is the closed string enumeration (`"button"`, `"listbox"`,
`"iconlist"`, `"toolbar"`, `"menubar"`, `"label"`, `"loading"`, ...). -/
structure UIElement where
  id : String
  type : String
  bbox : BBox
  text : Option String := none
  rows : Option Nat := none
  cols : Option Nat := none
  rowHeights : Option (List ℚ) := none
  colWidths : Option (List ℚ) := none
  parentId : Option String := none
  icons : Option (List IconDefinition) := none
  color : Option String := none
  textAlign : Option String := none
  loadingImage : Option String := none
  waitTime : Option ℚ := none
  iconWidth : Option ℚ := none
  iconHeight : Option ℚ := none
deriving Repr, DecidableEq

/-- JavaScript `Math.round` (round half toward positive infinity):
`Math.round(q) = ⌊q + 1/2⌋`. -/
def jsRound (q : ℚ) : ℤ := ⌊q + 1 / 2⌋

/-- JavaScript `el.rows || 1` / `el.cols || 1`: `undefined` and `0` are
falsy and default to `1`. -/
def orOne (o : Option Nat) : Nat :=
  match o with
  | none => 1
  | some n => if n = 0 then 1 else n

/-- `Array(n).fill(1 / n)`: the uniform fraction array. -/
def uniformFractions (n : Nat) : List ℚ := List.replicate n (1 / (n : ℚ))

/-- The idiom
`el.colWidths && el.colWidths.length === cols ? [...el.colWidths] : Array(cols).fill(1/cols)`
(AnnotationCanvas.tsx lines 731-733 and 771-773, ElementList.tsx lines
669-671 and 727-729): use the stored array exactly when it is present with
the expected length, otherwise fall back to the uniform array.  In
JavaScript any array (even `[]`) is truthy, so only the length test
matters once the field is present. -/
def currentFractions (stored : Option (List ℚ)) (n : Nat) : List ℚ :=
  match stored with
  | none => uniformFractions n
  | some ws => if ws.length = n then ws else uniformFractions n

/-! ## Divider drag (AnnotationCanvas.tsx `handleMouseMove`, lines 721-807)

The column branch (lines 729-768) and the row branch (lines 769-805) are
literal duplicates of one another with `x/width/colWidths` renamed to
`y/height/rowHeights`; both are embedded. -/

/-- Column-divider drag step (lines 729-763): given the live element, the
dragged divider index and the live pointer x in image space, produce the
normalized `colWidths` array that the move event commits. -/
def dividerDragCol (el : UIElement) (index : Nat) (posX : ℚ) : List ℚ :=
  let cols := orOne el.cols
  let x := el.bbox.x
  let width := el.bbox.width
  let currentWidths := currentFractions el.colWidths cols
  let newPosX := max (x + 10) (min posX (x + width - 10))
  let newFraction := (newPosX - x) / width
  let cumBefore := (currentWidths.take index).sum
  let minWidth := 10 / width
  let leftCol := index
  let rightCol := index + 1
  let newLeftWidth := max minWidth (newFraction - cumBefore)
  let oldCombined := currentWidths.getD leftCol 0 + currentWidths.getD rightCol 0
  let newRightWidth := max minWidth (oldCombined - newLeftWidth)
  let updated := (currentWidths.set leftCol newLeftWidth).set rightCol newRightWidth
  let s := updated.sum
  updated.map (fun w => w / s)

/-- Row-divider drag step (lines 769-805): identical to `dividerDragCol`
along the vertical axis. -/
def dividerDragRow (el : UIElement) (index : Nat) (posY : ℚ) : List ℚ :=
  let rows := orOne el.rows
  let y := el.bbox.y
  let height := el.bbox.height
  let currentHeights := currentFractions el.rowHeights rows
  let newPosY := max (y + 10) (min posY (y + height - 10))
  let newFraction := (newPosY - y) / height
  let cumBefore := (currentHeights.take index).sum
  let minHeight := 10 / height
  let topRow := index
  let bottomRow := index + 1
  let newTopHeight := max minHeight (newFraction - cumBefore)
  let oldCombined := currentHeights.getD topRow 0 + currentHeights.getD bottomRow 0
  let newBottomHeight := max minHeight (oldCombined - newTopHeight)
  let updated := (currentHeights.set topRow newTopHeight).set bottomRow newBottomHeight
  let s := updated.sum
  updated.map (fun h => h / s)

/-! ## Row/column count change (ElementList.tsx, rows and cols inputs) -/

/-- The split/merge computation of the `Rows` input `onChange`
(ElementList.tsx lines 675-694), on an already-initialized fraction array:
increasing splits the last fraction evenly into `num - oldRows + 1`
pieces; decreasing merges the fractions from index `num - 1` on into one
entry; equal count keeps the array.  `slice(0, -1)` is `dropLast`,
`slice(num - 1)` is `drop (num - 1)`. -/
def changeCount (oldCount : Nat) (oldFractions : List ℚ) (num : Nat) : List ℚ :=
  if oldCount < num then
    let addCount := num - oldCount
    let lastFraction := oldFractions.getD (oldCount - 1) 0
    let splitFraction := lastFraction / ((addCount : ℚ) + 1)
    oldFractions.dropLast ++ List.replicate (addCount + 1) splitFraction
  else if num < oldCount then
    oldFractions.take (num - 1) ++ [(oldFractions.drop (num - 1)).sum]
  else
    oldFractions

/-- The full `Rows` input `onChange` commit (ElementList.tsx lines
666-699): defaulted old count, length-checked fraction initialization,
then the split/merge. -/
def rowsOnChange (el : UIElement) (num : Nat) : List ℚ :=
  let oldRows := orOne el.rows
  let oldHeights := currentFractions el.rowHeights oldRows
  changeCount oldRows oldHeights num

/-- The full `Cols` input `onChange` commit (ElementList.tsx lines
724-757), identical to `rowsOnChange` with `cols`/`colWidths`. -/
def colsOnChange (el : UIElement) (num : Nat) : List ℚ :=
  let oldCols := orOne el.cols
  let oldWidths := currentFractions el.colWidths oldCols
  changeCount oldCols oldWidths num

/-! ## Helper lemmas -/

theorem sum_map_div (l : List ℚ) (s : ℚ) :
    (l.map (fun w => w / s)).sum = l.sum / s := by
  induction l with
  | nil => simp
  | cons h t ih => simp [ih, add_div]

theorem currentFractions_length (stored : Option (List ℚ)) (n : Nat) :
    (currentFractions stored n).length = n := by
  cases stored with
  | none => simp [currentFractions, uniformFractions]
  | some ws =>
    simp only [currentFractions]
    split <;> simp_all [uniformFractions]

theorem uniformFractions_sum (n : Nat) (hn : 1 ≤ n) :
    (uniformFractions n).sum = 1 := by
  have hne : (n : ℚ) ≠ 0 := Nat.cast_ne_zero.mpr (by omega)
  rw [uniformFractions, List.sum_replicate, nsmul_eq_mul, mul_one_div,
    div_self hne]

/-- After setting indices `i` and `i + 1` to values each at least `mw > 0`
in a nonnegative list, the sum is positive. -/
theorem set2_sum_pos (ws : List ℚ) (i : Nat) (mw a b : ℚ)
    (hmw : 0 < mw) (hlen : i + 1 < ws.length)
    (hnn : ∀ x ∈ ws, 0 ≤ x) :
    0 < ((ws.set i (max mw a)).set (i + 1) (max mw b)).sum := by
  set updated := (ws.set i (max mw a)).set (i + 1) (max mw b) with hupd
  have hlen' : i + 1 < updated.length := by
    simpa [hupd] using hlen
  have hnn' : ∀ x ∈ updated, 0 ≤ x := by
    intro x hx
    rcases List.mem_or_eq_of_mem_set hx with hx1 | hx1
    · rcases List.mem_or_eq_of_mem_set hx1 with hx2 | hx2
      · exact hnn x hx2
      · exact hx2 ▸ le_trans hmw.le (le_max_left _ _)
    · exact hx1 ▸ le_trans hmw.le (le_max_left _ _)
  have hget : updated.get ⟨i + 1, hlen'⟩ = max mw b := by
    simp [hupd]
  have hmem : updated.get ⟨i + 1, hlen'⟩ ∈ updated :=
    List.get_mem updated (i + 1) hlen'
  have hle : updated.get ⟨i + 1, hlen'⟩ ≤ updated.sum :=
    List.single_le_sum hnn' _ hmem
  have : 0 < updated.get ⟨i + 1, hlen'⟩ := by
    rw [hget]; exact lt_of_lt_of_le hmw (le_max_left _ _)
  linarith

/-- `changeCount` keeps the sum of the fraction array, provided the array's
length matches the old count (the callers establish this via
`currentFractions`) and both counts are at least 1. -/
theorem changeCount_sum (oldCount : Nat) (l : List ℚ) (num : Nat)
    (hlen : l.length = oldCount) (hold : 1 ≤ oldCount) (hnum : 1 ≤ num) :
    (changeCount oldCount l num).sum = l.sum := by
  subst hlen
  unfold changeCount
  split
  · -- increase
    next hlt =>
    have hne : l ≠ [] := List.length_pos.mp hold
    have hgetD : l.getD (l.length - 1) 0 = l.getLast hne := by
      rw [List.getLast_eq_getElem, List.getD_eq_getElem l 0 (by omega)]
    have hcast : ((num - l.length : Nat) : ℚ) + 1 ≠ 0 := by positivity
    have hmul : ((num - l.length + 1 : Nat) : ℚ) *
        (l.getLast hne / (((num - l.length : Nat) : ℚ) + 1)) = l.getLast hne := by
      push_cast
      field_simp
    rw [List.sum_append, hgetD, List.sum_replicate, nsmul_eq_mul, hmul]
    conv_rhs => rw [← List.dropLast_append_getLast hne]
    rw [List.sum_append, List.sum_singleton]
  · -- decrease or unchanged
    split
    · rw [List.sum_append, List.sum_singleton, List.sum_take_add_sum_drop]
    · rfl

/-- `changeCount` produces an array of length `num`. -/
theorem changeCount_length (oldCount : Nat) (l : List ℚ) (num : Nat)
    (hlen : l.length = oldCount) (hold : 1 ≤ oldCount) (hnum : 1 ≤ num) :
    (changeCount oldCount l num).length = num := by
  subst hlen
  unfold changeCount
  split
  · next hlt =>
    simp only [List.length_append, List.length_dropLast, List.length_replicate]
    omega
  · split
    · next h1 h2 =>
      simp only [List.length_append, List.length_take, List.length_singleton]
      omega
    · next h1 h2 =>
      omega

theorem orOne_pos (o : Option Nat) : 1 ≤ orOne o := by
  cases o with
  | none => simp [orOne]
  | some n => simp only [orOne]; split <;> omega

/-- Setting the two divider-adjacent entries to `max mw _` and dividing
everything by the new sum yields an array of the same length summing to 1. -/
theorem normalize_set2 (ws : List ℚ) (i : Nat) (mw a b : ℚ)
    (hmw : 0 < mw) (hlen : i + 1 < ws.length) (hnn : ∀ x ∈ ws, 0 ≤ x) :
    (((ws.set i (max mw a)).set (i + 1) (max mw b)).map
        (fun w => w / ((ws.set i (max mw a)).set (i + 1) (max mw b)).sum)).length
        = ws.length ∧
      (((ws.set i (max mw a)).set (i + 1) (max mw b)).map
        (fun w => w / ((ws.set i (max mw a)).set (i + 1) (max mw b)).sum)).sum
        = 1 := by
  have hpos := set2_sum_pos ws i mw a b hmw hlen hnn
  constructor
  · simp
  · rw [sum_map_div, div_self hpos.ne']

/-- Core of the column-divider drag: the committed array has length
`cols` and sums to exactly 1 (the source renormalizes on every move). -/
theorem dividerDragCol_normalized (el : UIElement) (index : Nat) (posX : ℚ)
    (hw : 0 < el.bbox.width)
    (hidx : index + 1 < orOne el.cols)
    (hnn : ∀ w ∈ currentFractions el.colWidths (orOne el.cols), 0 ≤ w) :
    (dividerDragCol el index posX).length = orOne el.cols ∧
      (dividerDragCol el index posX).sum = 1 := by
  have hlen0 : (currentFractions el.colWidths (orOne el.cols)).length =
      orOne el.cols := currentFractions_length _ _
  have hmw : 0 < 10 / el.bbox.width := by positivity
  have h := normalize_set2 (currentFractions el.colWidths (orOne el.cols))
    index (10 / el.bbox.width)
    ((max (el.bbox.x + 10) (min posX (el.bbox.x + el.bbox.width - 10)) -
        el.bbox.x) / el.bbox.width -
      ((currentFractions el.colWidths (orOne el.cols)).take index).sum)
    (((currentFractions el.colWidths (orOne el.cols)).getD index 0 +
        (currentFractions el.colWidths (orOne el.cols)).getD (index + 1) 0) -
      max (10 / el.bbox.width)
        ((max (el.bbox.x + 10) (min posX (el.bbox.x + el.bbox.width - 10)) -
            el.bbox.x) / el.bbox.width -
          ((currentFractions el.colWidths (orOne el.cols)).take index).sum))
    hmw (by rw [hlen0]; exact hidx) hnn
  rw [hlen0] at h
  simpa only [dividerDragCol] using h

/-- Core of the row-divider drag, symmetric to `dividerDragCol_normalized`. -/
theorem dividerDragRow_normalized (el : UIElement) (index : Nat) (posY : ℚ)
    (hh : 0 < el.bbox.height)
    (hidx : index + 1 < orOne el.rows)
    (hnn : ∀ h ∈ currentFractions el.rowHeights (orOne el.rows), 0 ≤ h) :
    (dividerDragRow el index posY).length = orOne el.rows ∧
      (dividerDragRow el index posY).sum = 1 := by
  have hlen0 : (currentFractions el.rowHeights (orOne el.rows)).length =
      orOne el.rows := currentFractions_length _ _
  have hmw : 0 < 10 / el.bbox.height := by positivity
  have h := normalize_set2 (currentFractions el.rowHeights (orOne el.rows))
    index (10 / el.bbox.height)
    ((max (el.bbox.y + 10) (min posY (el.bbox.y + el.bbox.height - 10)) -
        el.bbox.y) / el.bbox.height -
      ((currentFractions el.rowHeights (orOne el.rows)).take index).sum)
    (((currentFractions el.rowHeights (orOne el.rows)).getD index 0 +
        (currentFractions el.rowHeights (orOne el.rows)).getD (index + 1) 0) -
      max (10 / el.bbox.height)
        ((max (el.bbox.y + 10) (min posY (el.bbox.y + el.bbox.height - 10)) -
            el.bbox.y) / el.bbox.height -
          ((currentFractions el.rowHeights (orOne el.rows)).take index).sum))
    hmw (by rw [hlen0]; exact hidx) hnn
  rw [hlen0] at h
  simpa only [dividerDragRow] using h

/-! ## Resize (AnnotationCanvas.tsx `handleMouseMove`, lines 810-856) -/

/-- The eight resize edge codes `{n,s,e,w,ne,nw,se,sw}` returned by
`detectEdge`. -/
inductive ResizeEdge where
  | n | s | e | w | ne | nw | se | sw
deriving Repr, DecidableEq

/-- The `switch (resizeEdge)` block (lines 818-843): apply the cumulative
pointer delta `(dx, dy)` to the gesture-start bbox snapshot, flooring each
adjusted dimension at 10.  Dimensions an edge does not adjust are carried
over from the snapshot unchanged. -/
def applyEdge (edge : ResizeEdge) (orig : BBox) (dx dy : ℚ) : BBox :=
  match edge with
  | .e => { orig with width := max 10 (orig.width + dx) }
  | .w => { orig with x := orig.x + dx, width := max 10 (orig.width - dx) }
  | .s => { orig with height := max 10 (orig.height + dy) }
  | .n => { orig with y := orig.y + dy, height := max 10 (orig.height - dy) }
  | .se => { orig with width := max 10 (orig.width + dx), height := max 10 (orig.height + dy) }
  | .nw => { orig with x := orig.x + dx, y := orig.y + dy, width := max 10 (orig.width - dx), height := max 10 (orig.height - dy) }
  | .ne => { orig with y := orig.y + dy, width := max 10 (orig.width + dx), height := max 10 (orig.height - dy) }
  | .sw => { orig with x := orig.x + dx, width := max 10 (orig.width - dx), height := max 10 (orig.height + dy) }

/-- The clamp block (lines 845-849): clamp `x` into `[0, imgW - 10]` and
`y` into `[0, imgH - 10]`, then clamp `width`/`height` against the
already-clamped origin. -/
def clampBBoxToImage (b : BBox) (imgW imgH : ℚ) : BBox :=
  let cx := max 0 (min b.x (imgW - 10))
  let cy := max 0 (min b.y (imgH - 10))
  { x := cx, y := cy,
    width := min b.width (imgW - cx), height := min b.height (imgH - cy) }

/-- The bbox committed by one resize pointer-move (lines 810-849): edge
adjustment from the snapshot, then the image-bounds clamp. -/
def resizeCommit (edge : ResizeEdge) (orig : BBox) (dx dy imgW imgH : ℚ) : BBox :=
  clampBBoxToImage (applyEdge edge orig dx dy) imgW imgH

/-- After the clamp, a bbox whose dimensions were already at least 10
satisfies all six bound constraints (image at least 10×10). -/
theorem clampBBoxToImage_bounds (b : BBox) (imgW imgH : ℚ)
    (hW : 10 ≤ imgW) (hH : 10 ≤ imgH)
    (hw : 10 ≤ b.width) (hh : 10 ≤ b.height) :
    10 ≤ (clampBBoxToImage b imgW imgH).width ∧
      10 ≤ (clampBBoxToImage b imgW imgH).height ∧
      0 ≤ (clampBBoxToImage b imgW imgH).x ∧
      0 ≤ (clampBBoxToImage b imgW imgH).y ∧
      (clampBBoxToImage b imgW imgH).x + (clampBBoxToImage b imgW imgH).width
        ≤ imgW ∧
      (clampBBoxToImage b imgW imgH).y + (clampBBoxToImage b imgW imgH).height
        ≤ imgH := by
  have hcx0 : (0 : ℚ) ≤ max 0 (min b.x (imgW - 10)) := le_max_left _ _
  have hcxW : max 0 (min b.x (imgW - 10)) ≤ imgW - 10 :=
    max_le (by linarith) (min_le_right _ _)
  have hcy0 : (0 : ℚ) ≤ max 0 (min b.y (imgH - 10)) := le_max_left _ _
  have hcyH : max 0 (min b.y (imgH - 10)) ≤ imgH - 10 :=
    max_le (by linarith) (min_le_right _ _)
  simp only [clampBBoxToImage]
  refine ⟨le_min hw (by linarith), le_min hh (by linarith), hcx0, hcy0, ?_, ?_⟩
  · have := min_le_right b.width (imgW - max 0 (min b.x (imgW - 10)))
    linarith
  · have := min_le_right b.height (imgH - max 0 (min b.y (imgH - 10)))
    linarith

/-- `applyEdge` keeps both dimensions at least 10 when the snapshot's
dimensions were. -/
theorem applyEdge_min_dims (edge : ResizeEdge) (orig : BBox) (dx dy : ℚ)
    (hw : 10 ≤ orig.width) (hh : 10 ≤ orig.height) :
    10 ≤ (applyEdge edge orig dx dy).width ∧
      10 ≤ (applyEdge edge orig dx dy).height := by
  cases edge <;>
    refine ⟨?_, ?_⟩ <;>
    dsimp only [applyEdge] <;>
    first
      | exact hw
      | exact hh
      | exact le_max_left _ _

/-! ## Click selection and mouse-up in the drawing state
(AnnotationCanvas.tsx `handleClick` lines 674-706, `handleMouseUp` lines
947-1061) -/

/-- The containment test of `handleClick` and the icon-placement branch:
`pos.x >= x && pos.x <= x + width && pos.y >= y && pos.y <= y + height`
(inclusive on all four sides). -/
def bboxContains (b : BBox) (pos : ℚ × ℚ) : Bool :=
  decide (b.x ≤ pos.1 ∧ pos.1 ≤ b.x + b.width ∧
    b.y ≤ pos.2 ∧ pos.2 ≤ b.y + b.height)

/-- One iteration of the `handleClick` scan (lines 686-699): keep the
contained element with the strictly smallest area seen so far (first of
equal areas wins, as in the source's strict `<`). -/
def clickStep (pos : ℚ × ℚ) (acc : Option (UIElement × ℚ)) (el : UIElement) :
    Option (UIElement × ℚ) :=
  if bboxContains el.bbox pos then
    let area := el.bbox.width * el.bbox.height
    match acc with
    | none => some (el, area)
    | some (best, smallestArea) =>
        if area < smallestArea then some (el, area) else some (best, smallestArea)
  else acc

/-- The element `handleClick` selects: the contained element of smallest
bbox area, or none. -/
def findClickedElement (elements : List UIElement) (pos : ℚ × ℚ) :
    Option UIElement :=
  (elements.foldl (clickStep pos) none).map Prod.fst

/-- `handleClick` (lines 674-706): in icon-placement mode it returns
without touching the selection; otherwise the selection becomes the
smallest contained element's id, or is cleared. -/
def handleClick (isIconPlacementMode : Bool) (elements : List UIElement)
    (selected : Option String) (pos : ℚ × ℚ) : Option String :=
  if isIconPlacementMode then selected
  else (findClickedElement elements pos).map (fun el => el.id)

/-- The `drawMode` prop: `"single" | "grid"`. -/
inductive DrawMode where
  | single | grid
deriving Repr, DecidableEq

/-- `handleMouseUp` while in the drawing state (lines 974-1061), after
the panning/divider/resize/crop-resize early returns: returns the new
element collection and the new selection.  In crop mode the draw ends
with no collection or selection change (the crop rectangle was already
updated on moves); with no rectangle or one under 10×10 on both axes the
click path runs; otherwise an element (or, for `"listbox"` in grid mode, a
container plus rounded child cells) is appended.  `newId` stands for the
source's `el_${Date.now()}`. -/
def handleMouseUpDrawing (isCropMode isIconPlacementMode : Bool)
    (drawMode : DrawMode) (gridRows gridCols : Nat) (currentType : String)
    (currentRect : Option BBox) (newId : String)
    (elements : List UIElement) (selected : Option String) (pos : ℚ × ℚ) :
    List UIElement × Option String :=
  if isCropMode then (elements, selected)
  else
    match currentRect with
    | none => (elements, handleClick isIconPlacementMode elements selected pos)
    | some rect =>
      if rect.width < 10 ∧ rect.height < 10 then
        (elements, handleClick isIconPlacementMode elements selected pos)
      else if drawMode = DrawMode.grid ∧ (1 < gridRows ∨ 1 < gridCols) then
        if currentType = "listbox" then
          let cellWidth := rect.width / (gridCols : ℚ)
          let cellHeight := rect.height / (gridRows : ℚ)
          let containerElement : UIElement :=
            { id := newId, type := currentType, bbox := rect,
              text := some currentType,
              rows := some gridRows, cols := some gridCols }
          let cellElements : List UIElement :=
            (List.range gridRows).flatMap (fun r =>
              (List.range gridCols).map (fun c =>
                { id := newId ++ "_r" ++ toString r ++ "_c" ++ toString c,
                  type := "label",
                  bbox := ⟨(jsRound (rect.x + (c : ℚ) * cellWidth) : ℚ),
                           (jsRound (rect.y + (r : ℚ) * cellHeight) : ℚ),
                           (jsRound cellWidth : ℚ), (jsRound cellHeight : ℚ)⟩,
                  text := some ("item_" ++ toString (r * gridCols + c + 1)),
                  parentId := some newId }))
          (elements ++ containerElement :: cellElements, some newId)
        else
          let newElement : UIElement :=
            { id := newId, type := currentType, bbox := rect,
              rows := some gridRows, cols := some gridCols }
          (elements ++ [newElement], some newId)
      else
        let newElement : UIElement :=
          { id := newId, type := currentType, bbox := rect }
        (elements ++ [newElement], some newId)

/-- `clickStep` on a contained element. -/
theorem clickStep_of_contains (pos : ℚ × ℚ) (el : UIElement)
    (acc : Option (UIElement × ℚ)) (hc : bboxContains el.bbox pos = true) :
    clickStep pos acc el =
      match acc with
      | none => some (el, el.bbox.width * el.bbox.height)
      | some (best, smallestArea) =>
          if el.bbox.width * el.bbox.height < smallestArea
          then some (el, el.bbox.width * el.bbox.height)
          else some (best, smallestArea) := by
  simp [clickStep, hc]

/-- `clickStep` on an element that does not contain the point is the
identity. -/
theorem clickStep_of_not_contains (pos : ℚ × ℚ) (el : UIElement)
    (acc : Option (UIElement × ℚ)) (hc : bboxContains el.bbox pos = false) :
    clickStep pos acc el = acc := by
  simp [clickStep, hc]

/-- Full characterization of the `handleClick` fold: what a `some` result
means (membership, containment, minimal area, improvement over the seed)
and when the result is `none`. -/
theorem clickFold_spec (pos : ℚ × ℚ) (l : List UIElement)
    (acc : Option (UIElement × ℚ)) :
    (∀ p, l.foldl (clickStep pos) acc = some p →
      (acc = some p ∨ (p.1 ∈ l ∧ bboxContains p.1.bbox pos = true ∧
          p.2 = p.1.bbox.width * p.1.bbox.height)) ∧
        (∀ e ∈ l, bboxContains e.bbox pos = true →
          p.2 ≤ e.bbox.width * e.bbox.height) ∧
        (∀ q, acc = some q → p.2 ≤ q.2)) ∧
    (l.foldl (clickStep pos) acc = none →
      acc = none ∧ ∀ e ∈ l, bboxContains e.bbox pos = false) := by
  induction l generalizing acc with
  | nil =>
    refine ⟨fun p hp => ?_, fun hn => ?_⟩
    · have hacc : acc = some p := hp
      refine ⟨Or.inl hacc, fun e he => absurd he (List.not_mem_nil e), ?_⟩
      intro q hq
      rw [hacc] at hq
      injection hq with h
      rw [h]
    · have hacc : acc = none := hn
      exact ⟨hacc, fun e he => absurd he (List.not_mem_nil e)⟩
  | cons hd tl ih =>
    have hfold : (hd :: tl).foldl (clickStep pos) acc =
        tl.foldl (clickStep pos) (clickStep pos acc hd) := rfl
    by_cases hc : bboxContains hd.bbox pos = true
    · -- the head is contained
      rcases acc with _ | ⟨b, ba⟩
      · -- seed none: the step seeds the head
        have hstep : clickStep pos none hd =
            some (hd, hd.bbox.width * hd.bbox.height) :=
          clickStep_of_contains pos hd none hc
        refine ⟨fun p hp => ?_, fun hn => ?_⟩
        · rw [hfold, hstep] at hp
          obtain ⟨hsrc, hmin, himp⟩ := (ih _).1 p hp
          have hple : p.2 ≤ hd.bbox.width * hd.bbox.height := himp _ rfl
          refine ⟨?_, ?_, ?_⟩
          · rcases hsrc with h | hin
            · injection h with h2
              exact Or.inr (by
                rw [← h2]
                exact ⟨List.mem_cons_self hd tl, hc, rfl⟩)
            · exact Or.inr ⟨List.mem_cons_of_mem hd hin.1, hin.2.1, hin.2.2⟩
          · intro e he hce
            rcases List.mem_cons.mp he with rfl | he2
            · exact hple
            · exact hmin e he2 hce
          · intro q hq
            exact absurd hq (by simp)
        · rw [hfold, hstep] at hn
          obtain ⟨habs, _⟩ := (ih _).2 hn
          exact absurd habs (by simp)
      · -- seed some (b, ba)
        by_cases hlt : hd.bbox.width * hd.bbox.height < ba
        · have hstep : clickStep pos (some (b, ba)) hd =
              some (hd, hd.bbox.width * hd.bbox.height) := by
            rw [clickStep_of_contains pos hd (some (b, ba)) hc]
            show (if hd.bbox.width * hd.bbox.height < ba
                then some (hd, hd.bbox.width * hd.bbox.height)
                else some (b, ba)) =
              some (hd, hd.bbox.width * hd.bbox.height)
            rw [if_pos hlt]
          refine ⟨fun p hp => ?_, fun hn => ?_⟩
          · rw [hfold, hstep] at hp
            obtain ⟨hsrc, hmin, himp⟩ := (ih _).1 p hp
            have hple : p.2 ≤ hd.bbox.width * hd.bbox.height := himp _ rfl
            refine ⟨?_, ?_, ?_⟩
            · rcases hsrc with h | hin
              · injection h with h2
                exact Or.inr (by
                  rw [← h2]
                  exact ⟨List.mem_cons_self hd tl, hc, rfl⟩)
              · exact Or.inr ⟨List.mem_cons_of_mem hd hin.1, hin.2.1, hin.2.2⟩
            · intro e he hce
              rcases List.mem_cons.mp he with rfl | he2
              · exact hple
              · exact hmin e he2 hce
            · intro q hq
              injection hq with h2
              rw [← h2]
              exact le_trans hple hlt.le
          · rw [hfold, hstep] at hn
            obtain ⟨habs, _⟩ := (ih _).2 hn
            exact absurd habs (by simp)
        · have hstep : clickStep pos (some (b, ba)) hd = some (b, ba) := by
            rw [clickStep_of_contains pos hd (some (b, ba)) hc]
            show (if hd.bbox.width * hd.bbox.height < ba
                then some (hd, hd.bbox.width * hd.bbox.height)
                else some (b, ba)) = some (b, ba)
            rw [if_neg hlt]
          refine ⟨fun p hp => ?_, fun hn => ?_⟩
          · rw [hfold, hstep] at hp
            obtain ⟨hsrc, hmin, himp⟩ := (ih _).1 p hp
            have hple : p.2 ≤ ba := himp _ rfl
            refine ⟨?_, ?_, ?_⟩
            · rcases hsrc with h | hin
              · exact Or.inl h
              · exact Or.inr ⟨List.mem_cons_of_mem hd hin.1, hin.2.1, hin.2.2⟩
            · intro e he hce
              rcases List.mem_cons.mp he with rfl | he2
              · exact le_trans hple (le_of_not_lt hlt)
              · exact hmin e he2 hce
            · intro q hq
              injection hq with h2
              rw [← h2]
              exact hple
          · rw [hfold, hstep] at hn
            obtain ⟨habs, _⟩ := (ih _).2 hn
            exact absurd habs (by simp)
    · -- the head is not contained: the step is the identity
      have hcf : bboxContains hd.bbox pos = false := by
        simpa using hc
      have hid : clickStep pos acc hd = acc :=
        clickStep_of_not_contains pos hd acc hcf
      refine ⟨fun p hp => ?_, fun hn => ?_⟩
      · rw [hfold, hid] at hp
        obtain ⟨hsrc, hmin, himp⟩ := (ih acc).1 p hp
        refine ⟨?_, ?_, himp⟩
        · rcases hsrc with h | hin
          · exact Or.inl h
          · exact Or.inr ⟨List.mem_cons_of_mem hd hin.1, hin.2.1, hin.2.2⟩
        · intro e he hce
          rcases List.mem_cons.mp he with rfl | he2
          · simp [hcf] at hce
          · exact hmin e he2 hce
      · rw [hfold, hid] at hn
        obtain ⟨hacc, htl⟩ := (ih acc).2 hn
        refine ⟨hacc, fun e he => ?_⟩
        rcases List.mem_cons.mp he with rfl | he2
        · exact hcf
        · exact htl e he2

/-- What `findClickedElement` returns: a contained element of globally
minimal area, or `none` exactly when no element contains the point. -/
theorem findClickedElement_spec (elements : List UIElement) (pos : ℚ × ℚ) :
    (∀ el, findClickedElement elements pos = some el →
      el ∈ elements ∧ bboxContains el.bbox pos = true ∧
        ∀ e ∈ elements, bboxContains e.bbox pos = true →
          el.bbox.width * el.bbox.height ≤ e.bbox.width * e.bbox.height) ∧
    (findClickedElement elements pos = none ↔
      ∀ e ∈ elements, bboxContains e.bbox pos = false) := by
  constructor
  · intro el hel
    unfold findClickedElement at hel
    rcases hfold : elements.foldl (clickStep pos) none with _ | p
    · rw [hfold] at hel; simp at hel
    · rw [hfold] at hel
      have hel2 : some p.1 = some el := hel
      injection hel2 with h
      obtain ⟨hsrc, hmin, _⟩ := (clickFold_spec pos elements none).1 p hfold
      rcases hsrc with habs | ⟨hmem, hcont, harea⟩
      · simp at habs
      · subst h
        exact ⟨hmem, hcont, fun e he hce => harea ▸ hmin e he hce⟩
  · constructor
    · intro hnone
      unfold findClickedElement at hnone
      rcases hfold : elements.foldl (clickStep pos) none with _ | p
      · exact ((clickFold_spec pos elements none).2 hfold).2
      · rw [hfold] at hnone; simp at hnone
    · intro hall
      unfold findClickedElement
      have : elements.foldl (clickStep pos) none = none := by
        induction elements with
        | nil => rfl
        | cons hd tl ih2 =>
          have hc : bboxContains hd.bbox pos = false :=
            hall hd (List.mem_cons_self hd tl)
          have hid : clickStep pos none hd = none := by
            simp only [clickStep, hc, Bool.false_eq_true, if_false]
          rw [List.foldl_cons, hid]
          exact ih2 (fun e he => hall e (List.mem_cons_of_mem hd he))
      rw [this]
      rfl

/-! ## Coordinate conversion (AnnotationCanvas.tsx `screenToImage`,
lines 486-496) -/

/-- `screenToImage` (lines 486-496): subtract the canvas bounding-rect
origin and the centering/pan offset, divide by the effective scale, and
round both coordinates to the nearest integer (`Math.round`). -/
def screenToImage (scale offsetX offsetY rectLeft rectTop screenX screenY : ℚ) :
    ℚ × ℚ :=
  ((jsRound ((screenX - rectLeft - offsetX) / scale) : ℚ),
   (jsRound ((screenY - rectTop - offsetY) / scale) : ℚ))

/-- The exact unrounded inverse view transform, following the spec's
words (`screenToImage(p)`: inverse of `screen = p × effectiveScale +
offset`, continuous for in-gesture deltas).  Defined only to compare the
source's conversion against the spec's claimed continuous one. -/
def screenToImageCont (scale offsetX offsetY rectLeft rectTop screenX screenY : ℚ) :
    ℚ × ℚ :=
  ((screenX - rectLeft - offsetX) / scale,
   (screenY - rectTop - offsetY) / scale)

/-- The cumulative resize delta `dx = pos.x - resizeStart.x` of
`handleMouseMove` (line 811), where both coordinates are `screenToImage`
outputs (the x components; y is analogous). -/
def resizeGestureDx (scale offsetX offsetY rectLeft rectTop startScreenX
    moveScreenX : ℚ) : ℚ :=
  (screenToImage scale offsetX offsetY rectLeft rectTop moveScreenX 0).1 -
    (screenToImage scale offsetX offsetY rectLeft rectTop startScreenX 0).1

/-- The delta the spec describes: the difference of the continuous,
unrounded conversions. -/
def resizeGestureDxCont (scale offsetX offsetY rectLeft rectTop startScreenX
    moveScreenX : ℚ) : ℚ :=
  (screenToImageCont scale offsetX offsetY rectLeft rectTop moveScreenX 0).1 -
    (screenToImageCont scale offsetX offsetY rectLeft rectTop startScreenX 0).1

/-! ## Grid positions and hit testing -/

/-- `interface GridPositions` (gridUtils.ts): the interior divider line
coordinates and the cell-boundary arrays including both bbox edges. -/
structure GridPositions where
  colPositions : List ℚ
  rowPositions : List ℚ
  colBounds : List ℚ
  rowBounds : List ℚ
deriving Repr, DecidableEq

/-- `getGridPositions` (gridUtils.ts, staged inside
src/app/api/generators/save/route.ts after the document separator):
with an explicit fraction array of matching length, the loop accumulates
`cumX += colWidths[c] * width` and pushes each running sum for
`c = 0 .. cols - 2`, so interior divider `c` sits at
`x + Σ_{j ≤ c} colWidths[j]·width`; otherwise the uniform fallback
pushes `x + c * (width / cols)` for `c = 1 .. cols - 1`.  Rows are
symmetric, and the bounds arrays prepend/append the bbox edges. -/
def getGridPositions (el : UIElement) : GridPositions :=
  let rows := orOne el.rows
  let cols := orOne el.cols
  let colPositions : List ℚ :=
    match el.colWidths with
    | some ws =>
      if ws.length = cols then
        (List.range (cols - 1)).map (fun c =>
          el.bbox.x + ((ws.take (c + 1)).map (fun w => w * el.bbox.width)).sum)
      else
        (List.range (cols - 1)).map (fun c =>
          el.bbox.x + ((c : ℚ) + 1) * (el.bbox.width / (cols : ℚ)))
    | none =>
      (List.range (cols - 1)).map (fun c =>
        el.bbox.x + ((c : ℚ) + 1) * (el.bbox.width / (cols : ℚ)))
  let rowPositions : List ℚ :=
    match el.rowHeights with
    | some hs =>
      if hs.length = rows then
        (List.range (rows - 1)).map (fun r =>
          el.bbox.y + ((hs.take (r + 1)).map (fun h => h * el.bbox.height)).sum)
      else
        (List.range (rows - 1)).map (fun r =>
          el.bbox.y + ((r : ℚ) + 1) * (el.bbox.height / (rows : ℚ)))
    | none =>
      (List.range (rows - 1)).map (fun r =>
        el.bbox.y + ((r : ℚ) + 1) * (el.bbox.height / (rows : ℚ)))
  { colPositions := colPositions,
    rowPositions := rowPositions,
    colBounds := el.bbox.x :: (colPositions ++ [el.bbox.x + el.bbox.width]),
    rowBounds := el.bbox.y :: (rowPositions ++ [el.bbox.y + el.bbox.height]) }

/-- The divider axis, `"row" | "col"` in the source. -/
inductive DividerAxis where
  | row | col
deriving Repr, DecidableEq

/-- A divider hit `{elementId, type, index}` returned by `detectDivider`. -/
structure DividerHit where
  elementId : String
  axis : DividerAxis
  index : Nat
deriving Repr, DecidableEq

/-- The per-element body of the `detectDivider` loop (lines 94-119):
skip single-cell elements, require the point inside the
threshold-expanded bbox, then scan column dividers first and row
dividers second, returning the first boundary within threshold whose
orthogonal coordinate lies inside the bbox span. -/
def dividerHitForElement (el : UIElement) (threshold : ℚ) (pos : ℚ × ℚ) :
    Option DividerHit :=
  let rows := orOne el.rows
  let cols := orOne el.cols
  if rows ≤ 1 ∧ cols ≤ 1 then none
  else if pos.1 < el.bbox.x - threshold ∨
      pos.1 > el.bbox.x + el.bbox.width + threshold then none
  else if pos.2 < el.bbox.y - threshold ∨
      pos.2 > el.bbox.y + el.bbox.height + threshold then none
  else
    let gp := getGridPositions el
    match gp.colPositions.findIdx? (fun p =>
        decide (|pos.1 - p| < threshold ∧ el.bbox.y ≤ pos.2 ∧
          pos.2 ≤ el.bbox.y + el.bbox.height)) with
    | some c => some ⟨el.id, DividerAxis.col, c⟩
    | none =>
      match gp.rowPositions.findIdx? (fun p =>
          decide (|pos.2 - p| < threshold ∧ el.bbox.x ≤ pos.1 ∧
            pos.1 ≤ el.bbox.x + el.bbox.width)) with
      | some r => some ⟨el.id, DividerAxis.row, r⟩
      | none => none

/-- `detectDivider` (lines 90-124): threshold `DIVIDER_THRESHOLD / scale`
with `DIVIDER_THRESHOLD = 6`; first element (in collection order) with a
hit wins. -/
def detectDivider (elements : List UIElement) (scale : ℚ) (pos : ℚ × ℚ) :
    Option DividerHit :=
  elements.findSome? (fun el => dividerHitForElement el (6 / scale) pos)

/-- The shared corner/edge detection of `detectEdge`/`detectCropEdge`
(lines 499-560): the four corners first (`nw`, `se`, `ne`, `sw`), then
the four edges, each requiring the point within the threshold-expanded
spans. -/
def detectEdgeBBox (bbox : BBox) (threshold : ℚ) (pos : ℚ × ℚ) :
    Option ResizeEdge :=
  let right := bbox.x + bbox.width
  let bottom := bbox.y + bbox.height
  let nearLeft := |pos.1 - bbox.x| < threshold
  let nearRight := |pos.1 - right| < threshold
  let nearTop := |pos.2 - bbox.y| < threshold
  let nearBottom := |pos.2 - bottom| < threshold
  let withinX := bbox.x - threshold ≤ pos.1 ∧ pos.1 ≤ right + threshold
  let withinY := bbox.y - threshold ≤ pos.2 ∧ pos.2 ≤ bottom + threshold
  if nearTop ∧ nearLeft ∧ withinX ∧ withinY then some ResizeEdge.nw
  else if nearBottom ∧ nearRight ∧ withinX ∧ withinY then some ResizeEdge.se
  else if nearTop ∧ nearRight ∧ withinX ∧ withinY then some ResizeEdge.ne
  else if nearBottom ∧ nearLeft ∧ withinX ∧ withinY then some ResizeEdge.sw
  else if nearLeft ∧ withinY then some ResizeEdge.w
  else if nearRight ∧ withinY then some ResizeEdge.e
  else if nearTop ∧ withinX then some ResizeEdge.n
  else if nearBottom ∧ withinX then some ResizeEdge.s
  else none

/-- `detectEdge` (lines 530-560): only against the currently selected
element's bbox, threshold `EDGE_THRESHOLD / scale` with
`EDGE_THRESHOLD = 8`. -/
def detectEdge (elements : List UIElement) (selectedElementId : Option String)
    (scale : ℚ) (pos : ℚ × ℚ) : Option ResizeEdge :=
  match selectedElementId with
  | none => none
  | some sid =>
    match elements.find? (fun e => e.id == sid) with
    | none => none
    | some el => detectEdgeBBox el.bbox (8 / scale) pos

/-- `detectCropEdge` (lines 499-527): the same algorithm against the
active crop rectangle. -/
def detectCropEdge (cropRect : Option BBox) (scale : ℚ) (pos : ℚ × ℚ) :
    Option ResizeEdge :=
  match cropRect with
  | none => none
  | some r => detectEdgeBBox r (8 / scale) pos

/-! ## Pointer-down dispatch (AnnotationCanvas.tsx `handleMouseDown`,
lines 582-672) -/

/-- What a pointer-down resolves to.  `iconIgnore` is the icon-placement
branch's early return for a point outside the selected container (no
gesture starts); `cropDraw`/`startDraw` record the gesture-start point. -/
inductive MouseDownAction where
  | pan
  | dividerDrag (hit : DividerHit) (startPos : ℚ)
  | resize (edge : ResizeEdge) (startX startY : ℚ) (snapshot : BBox)
  | colorSample
  | cropResize (edge : ResizeEdge) (startX startY : ℚ) (snapshot : BBox)
  | cropDraw (start : ℚ × ℚ)
  | iconPlace (containerId : String) (relX relY : ℚ)
  | iconIgnore
  | startDraw (start : ℚ × ℚ)
deriving Repr, DecidableEq

/-- The icon-container type test of the icon-placement branch (line 650):
`iconlist`, `toolbar` or `menubar`. -/
def isIconContainerType (t : String) : Bool :=
  t == "iconlist" || t == "toolbar" || t == "menubar"

/-- The tail of `handleMouseDown` after the pan/divider/resize checks
(lines 616-671): color sampling, crop mode, icon placement, drawing, in
source order.  The `onColorSampled`/`onIconPlaced` callbacks are modelled
as present. -/
def mouseDownTail (pos : ℚ × ℚ) (elements : List UIElement)
    (selectedElementId : Option String) (scale : ℚ)
    (isColorSampling isCropMode isIconPlacementMode : Bool)
    (cropRect : Option BBox) : MouseDownAction :=
  if isColorSampling then MouseDownAction.colorSample
  else if isCropMode then
    match detectCropEdge cropRect scale pos, cropRect with
    | some ce, some r => MouseDownAction.cropResize ce pos.1 pos.2 r
    | _, _ => MouseDownAction.cropDraw pos
  else if isIconPlacementMode then
    match selectedElementId with
    | some sid =>
      (match elements.find? (fun e => e.id == sid) with
       | some el =>
         if isIconContainerType el.type then
           if el.bbox.x ≤ pos.1 ∧ pos.1 ≤ el.bbox.x + el.bbox.width ∧
               el.bbox.y ≤ pos.2 ∧ pos.2 ≤ el.bbox.y + el.bbox.height
           then MouseDownAction.iconPlace el.id (pos.1 - el.bbox.x)
             (pos.2 - el.bbox.y)
           else MouseDownAction.iconIgnore
         else MouseDownAction.startDraw pos
       | none => MouseDownAction.startDraw pos)
    | none => MouseDownAction.startDraw pos
  else MouseDownAction.startDraw pos

/-- `handleMouseDown` (lines 582-672), with the image loaded: held pan
trigger (middle button, Alt, or Space) first, then the grid-divider hit,
then a resize edge on the selected element, then the moded one-shots and
drawing of `mouseDownTail`. -/
def handleMouseDown (button1 altKey spaceHeld : Bool) (pos : ℚ × ℚ)
    (elements : List UIElement) (selectedElementId : Option String)
    (scale : ℚ) (isColorSampling isCropMode isIconPlacementMode : Bool)
    (cropRect : Option BBox) : MouseDownAction :=
  if button1 || altKey || spaceHeld then MouseDownAction.pan
  else
    match detectDivider elements scale pos with
    | some d => MouseDownAction.dividerDrag d
        (match d.axis with
         | DividerAxis.col => pos.1
         | DividerAxis.row => pos.2)
    | none =>
      match detectEdge elements selectedElementId scale pos with
      | some edge =>
        (match selectedElementId with
         | some sid =>
           (match elements.find? (fun e => e.id == sid) with
            | some el => MouseDownAction.resize edge pos.1 pos.2 el.bbox
            | none => mouseDownTail pos elements selectedElementId scale
                isColorSampling isCropMode isIconPlacementMode cropRect)
         | none => mouseDownTail pos elements selectedElementId scale
             isColorSampling isCropMode isIconPlacementMode cropRect)
      | none => mouseDownTail pos elements selectedElementId scale
          isColorSampling isCropMode isIconPlacementMode cropRect

/-! ## Pointer-move commits on the collection -/

/-- The resize gesture session: edge code, gesture-start point, and the
bbox snapshot taken at gesture start (`resizeStart`, line 611). -/
structure ResizeSession where
  edge : ResizeEdge
  startX : ℚ
  startY : ℚ
  bbox : BBox
deriving Repr, DecidableEq

/-- The resize branch of `handleMouseMove` (lines 810-856): the new bbox
is computed from the session snapshot and the live pointer only, then
written to every element carrying the selected id. -/
def resizeMove (sess : ResizeSession) (selectedElementId : String)
    (elements : List UIElement) (pos : ℚ × ℚ) (imgW imgH : ℚ) :
    List UIElement :=
  let newBbox := resizeCommit sess.edge sess.bbox (pos.1 - sess.startX)
    (pos.2 - sess.startY) imgW imgH
  elements.map (fun el =>
    if el.id == selectedElementId then { el with bbox := newBbox } else el)

/-- The column-divider branch of `handleMouseMove` on the collection
(lines 721-768): the handler looks up the LIVE element by the session's
id (the session stores no fraction snapshot) and writes the recomputed
array. -/
def dividerMoveCol (elements : List UIElement) (elementId : String)
    (index : Nat) (posX : ℚ) : List UIElement :=
  match elements.find? (fun el => el.id == elementId) with
  | none => elements
  | some el =>
    elements.map (fun e =>
      if e.id == elementId
      then { e with colWidths := some (dividerDragCol el index posX) } else e)

/-- The row-divider branch (lines 769-805), symmetric. -/
def dividerMoveRow (elements : List UIElement) (elementId : String)
    (index : Nat) (posY : ℚ) : List UIElement :=
  match elements.find? (fun el => el.id == elementId) with
  | none => elements
  | some el =>
    elements.map (fun e =>
      if e.id == elementId
      then { e with rowHeights := some (dividerDragRow el index posY) } else e)

/-- A whole column-divider gesture: the move commits applied in order
(pointer-down stores only `{elementId, type, index, startPos}`;
pointer-up just clears the session, lines 954-958). -/
def dividerColGesture (elements : List UIElement) (elementId : String)
    (index : Nat) (moves : List ℚ) : List UIElement :=
  moves.foldl (fun els posX => dividerMoveCol els elementId index posX) elements

/-! ## Concrete example elements (used by witnesses and counterexamples) -/

/-- A 2×2 grid element with explicit halves on both axes. -/
def gridElement : UIElement :=
  { id := "g1", type := "grid", bbox := ⟨0, 0, 100, 100⟩,
    rows := some 2, cols := some 2,
    rowHeights := some [1/2, 1/2], colWidths := some [1/2, 1/2] }

/-- The spec scenario element: `rows = 3`, fractions `[0.2, 0.3, 0.5]`. -/
def rowsElement3 : UIElement :=
  { id := "r3", type := "grid", bbox := ⟨0, 0, 100, 100⟩,
    rows := some 3, rowHeights := some [1/5, 3/10, 1/2] }

/-! ## Claim theorems -/

/-- C1: for every element with more than one row or column, after every
divider-drag pointer-move commit and after every row/column count change,
the committed fraction array (`rowHeights` for rows, `colWidths` for cols)
has length equal to the row/column count and sums to 1 — exactly 1 in this
exact-arithmetic embedding, hence within the claimed 1e-6.  Divider
commits assume a non-degenerate axis span, a divider index with a cell on
each side, and nonnegative stored fractions; count changes assume the
pre-state array summed to 1 (the invariant being preserved) and the new
count committed by the input handler is at least 1. -/
theorem C1_fraction_invariant :
    (∀ (el : UIElement) (index : Nat) (posX : ℚ),
        0 < el.bbox.width → index + 1 < orOne el.cols →
        (∀ w ∈ currentFractions el.colWidths (orOne el.cols), 0 ≤ w) →
        (dividerDragCol el index posX).length = orOne el.cols ∧
          (dividerDragCol el index posX).sum = 1) ∧
    (∀ (el : UIElement) (index : Nat) (posY : ℚ),
        0 < el.bbox.height → index + 1 < orOne el.rows →
        (∀ h ∈ currentFractions el.rowHeights (orOne el.rows), 0 ≤ h) →
        (dividerDragRow el index posY).length = orOne el.rows ∧
          (dividerDragRow el index posY).sum = 1) ∧
    (∀ (el : UIElement) (num : Nat), 1 ≤ num →
        (currentFractions el.rowHeights (orOne el.rows)).sum = 1 →
        (rowsOnChange el num).length = num ∧ (rowsOnChange el num).sum = 1) ∧
    (∀ (el : UIElement) (num : Nat), 1 ≤ num →
        (currentFractions el.colWidths (orOne el.cols)).sum = 1 →
        (colsOnChange el num).length = num ∧ (colsOnChange el num).sum = 1) := by
  refine ⟨?_, ?_, ?_, ?_⟩
  · intro el index posX hw hidx hnn
    exact dividerDragCol_normalized el index posX hw hidx hnn
  · intro el index posY hh hidx hnn
    exact dividerDragRow_normalized el index posY hh hidx hnn
  · intro el num hnum hsum
    unfold rowsOnChange
    constructor
    · exact changeCount_length _ _ _ (currentFractions_length _ _)
        (orOne_pos _) hnum
    · rw [changeCount_sum _ _ _ (currentFractions_length _ _)
        (orOne_pos _) hnum, hsum]
  · intro el num hnum hsum
    unfold colsOnChange
    constructor
    · exact changeCount_length _ _ _ (currentFractions_length _ _)
        (orOne_pos _) hnum
    · rw [changeCount_sum _ _ _ (currentFractions_length _ _)
        (orOne_pos _) hnum, hsum]

/-- Witness for C1 at concrete inputs: a column-divider commit on the 2×2
grid element and a rows count change 2 → 3. -/
theorem C1_fraction_invariant_witness :
    ((dividerDragCol gridElement 0 70).length = 2 ∧
      (dividerDragCol gridElement 0 70).sum = 1) ∧
    ((rowsOnChange gridElement 3).length = 3 ∧
      (rowsOnChange gridElement 3).sum = 1) := by
  constructor
  · have h := C1_fraction_invariant.1 gridElement 0 70
      (by norm_num [gridElement])
      (by norm_num [gridElement, orOne])
      (by
        intro w hw
        simp [gridElement, currentFractions, orOne] at hw
        rw [hw]
        norm_num)
    simpa [gridElement, orOne] using h
  · have h := C1_fraction_invariant.2.2.1 gridElement 3 (by norm_num)
      (by
        simp [gridElement, currentFractions, orOne]
        norm_num)
    exact h

/-- C3: changing an element's row (or column) count from `R` to `R'` with
explicit fractions present splits the last fraction evenly into
`R' - R + 1` pieces when increasing (earlier entries unchanged) and merges
the fractions from index `R' - 1` on into one summed entry when
decreasing (entries before `R' - 1` unchanged); in particular
`[0.5, 0.5]` with rows increased to 3 yields `[0.5, 0.25, 0.25]` and
`[0.2, 0.3, 0.5]` with rows decreased to 2 yields `[0.2, 0.8]`. -/
theorem C3_count_change_split_merge :
    (∀ (R num : Nat) (old : List ℚ), old.length = R → 1 ≤ R → R < num →
        changeCount R old num =
          old.take (R - 1) ++
            List.replicate (num - R + 1)
              (old.getD (R - 1) 0 / (((num - R : Nat) : ℚ) + 1))) ∧
    (∀ (R num : Nat) (old : List ℚ), old.length = R → 1 ≤ num → num < R →
        changeCount R old num =
          old.take (num - 1) ++ [(old.drop (num - 1)).sum]) ∧
    rowsOnChange gridElement 3 = [1/2, 1/4, 1/4] ∧
    rowsOnChange rowsElement3 2 = [1/5, 4/5] := by
  refine ⟨?_, ?_, ?_, ?_⟩
  · intro R num old hlen hR hlt
    subst hlen
    unfold changeCount
    rw [if_pos hlt, List.dropLast_eq_take]
  · intro R num old hlen hnum hlt
    subst hlen
    unfold changeCount
    rw [if_neg (by omega), if_pos hlt]
  · norm_num [rowsOnChange, gridElement, changeCount, currentFractions, orOne,
      List.getD, List.replicate]
  · norm_num [rowsOnChange, rowsElement3, changeCount, currentFractions, orOne,
      List.getD, List.replicate]

/-- Witness for C3 at a concrete input: the increase rule applied to
`R = 2`, `R' = 3`, fractions `[1/2, 1/2]`. -/
theorem C3_count_change_split_merge_witness :
    changeCount 2 [(1 : ℚ)/2, 1/2] 3 = [(1 : ℚ)/2, 1/4, 1/4] := by
  have h := C3_count_change_split_merge.1 2 3 [(1 : ℚ)/2, 1/2]
    (by norm_num) (by norm_num) (by norm_num)
  rw [h]
  norm_num [List.getD, List.replicate]

/-- C2 as stated is false: the claim asserts every resize pointer-move
commit yields `width ≥ 10` whenever the image is at least 10×10, but
edges that do not adjust a dimension carry the snapshot's value through
unchanged, so resizing the south edge of a 5-wide element (such an
element can be created by the draw tool itself, whose click fallback
requires both dimensions under 10) commits `width = 5 < 10`.  Image
100×100, snapshot bbox `{x:0, y:0, width:5, height:50}`, edge `s`,
delta `(0, 0)`. -/
theorem C2_resize_bounds_counterexample :
    (resizeCommit ResizeEdge.s ⟨0, 0, 5, 50⟩ 0 0 100 100).width = 5 ∧
      ¬ (10 ≤ (resizeCommit ResizeEdge.s ⟨0, 0, 5, 50⟩ 0 0 100 100).width) := by
  norm_num [resizeCommit, applyEdge, clampBBoxToImage]

/-- C2 amended: for every resize pointer-move commit, if the image is at
least 10 units in each dimension AND the gesture-start snapshot already
satisfies the 10-unit minimum on both dimensions, the committed bbox
satisfies all six bound constraints; and it is computed by first clamping
`x` into `[0, imgW-10]` and `y` into `[0, imgH-10]`, then clamping
`width`/`height` against the already-clamped origin (the last conjunct is
the clamp-order refinement, definitional in this embedding). -/
theorem C2_resize_bounds (edge : ResizeEdge) (orig : BBox) (dx dy imgW imgH : ℚ)
    (hW : 10 ≤ imgW) (hH : 10 ≤ imgH)
    (hw : 10 ≤ orig.width) (hh : 10 ≤ orig.height) :
    10 ≤ (resizeCommit edge orig dx dy imgW imgH).width ∧
      10 ≤ (resizeCommit edge orig dx dy imgW imgH).height ∧
      0 ≤ (resizeCommit edge orig dx dy imgW imgH).x ∧
      0 ≤ (resizeCommit edge orig dx dy imgW imgH).y ∧
      (resizeCommit edge orig dx dy imgW imgH).x +
          (resizeCommit edge orig dx dy imgW imgH).width ≤ imgW ∧
      (resizeCommit edge orig dx dy imgW imgH).y +
          (resizeCommit edge orig dx dy imgW imgH).height ≤ imgH ∧
      resizeCommit edge orig dx dy imgW imgH =
        clampBBoxToImage (applyEdge edge orig dx dy) imgW imgH := by
  obtain ⟨hw', hh'⟩ := applyEdge_min_dims edge orig dx dy hw hh
  obtain ⟨h1, h2, h3, h4, h5, h6⟩ :=
    clampBBoxToImage_bounds (applyEdge edge orig dx dy) imgW imgH hW hH hw' hh'
  exact ⟨h1, h2, h3, h4, h5, h6, rfl⟩

/-- Witness for C2 at the spec's own scenario: image 1000×800, selected
bbox `{x:50, y:50, width:100, height:100}`, `nw` corner, delta
`(-20, -10)`. -/
theorem C2_resize_bounds_witness :
    10 ≤ (resizeCommit ResizeEdge.nw ⟨50, 50, 100, 100⟩ (-20) (-10) 1000 800).width ∧
      10 ≤ (resizeCommit ResizeEdge.nw ⟨50, 50, 100, 100⟩ (-20) (-10) 1000 800).height ∧
      0 ≤ (resizeCommit ResizeEdge.nw ⟨50, 50, 100, 100⟩ (-20) (-10) 1000 800).x ∧
      0 ≤ (resizeCommit ResizeEdge.nw ⟨50, 50, 100, 100⟩ (-20) (-10) 1000 800).y ∧
      (resizeCommit ResizeEdge.nw ⟨50, 50, 100, 100⟩ (-20) (-10) 1000 800).x +
          (resizeCommit ResizeEdge.nw ⟨50, 50, 100, 100⟩ (-20) (-10) 1000 800).width
          ≤ 1000 ∧
      (resizeCommit ResizeEdge.nw ⟨50, 50, 100, 100⟩ (-20) (-10) 1000 800).y +
          (resizeCommit ResizeEdge.nw ⟨50, 50, 100, 100⟩ (-20) (-10) 1000 800).height
          ≤ 800 ∧
      resizeCommit ResizeEdge.nw ⟨50, 50, 100, 100⟩ (-20) (-10) 1000 800 =
        clampBBoxToImage (applyEdge ResizeEdge.nw ⟨50, 50, 100, 100⟩ (-20) (-10))
          1000 800 :=
  C2_resize_bounds ResizeEdge.nw ⟨50, 50, 100, 100⟩ (-20) (-10) 1000 800
    (by norm_num) (by norm_num) (by norm_num) (by norm_num)

/-- The spec's resize scenario, checked against the embedding: `nw` drag
by `(-20, -10)` of `{x:50, y:50, width:100, height:100}` in a 1000×800
image yields `{x:30, y:40, width:120, height:110}`. -/
theorem resize_scenario_nw :
    resizeCommit ResizeEdge.nw ⟨50, 50, 100, 100⟩ (-20) (-10) 1000 800 =
      ⟨30, 40, 120, 110⟩ := by
  norm_num [resizeCommit, applyEdge, clampBBoxToImage]

/-- A plain 50×50 button at the origin, used as a click target. -/
def clickTarget : UIElement :=
  { id := "t1", type := "button", bbox := ⟨0, 0, 50, 50⟩ }

/-- C4 as stated is false in icon-placement mode: a draw gesture can
start there (the mode's one-shot branch only fires when the selection is
an icon container), and on a sub-10×10 release `handleClick` returns
before scanning, so no element is selected even though one contains the
point.  Release rect 5×5 at (20,20), pointer (25,25) inside `clickTarget`:
the collection is unchanged (that much of the claim holds) but the
selection stays `none` instead of becoming the smallest containing
element. -/
theorem C4_small_draw_counterexample :
    (handleMouseUpDrawing false true DrawMode.single 1 1 "button"
        (some ⟨20, 20, 5, 5⟩) "el_new" [clickTarget] none (25, 25)).1 =
      [clickTarget] ∧
    (handleMouseUpDrawing false true DrawMode.single 1 1 "button"
        (some ⟨20, 20, 5, 5⟩) "el_new" [clickTarget] none (25, 25)).2 = none ∧
    bboxContains clickTarget.bbox (25, 25) = true ∧
    findClickedElement [clickTarget] (25, 25) = some clickTarget := by
  refine ⟨?_, ?_, ?_, ?_⟩
  · norm_num [handleMouseUpDrawing, handleClick]
  · norm_num [handleMouseUpDrawing, handleClick]
  · norm_num [bboxContains, clickTarget]
  · norm_num [findClickedElement, clickStep, bboxContains, clickTarget]

/-- C4 amended: outside crop mode and icon-placement mode, a draw gesture
whose release rectangle is under 10 units on both axes appends nothing
and performs selection-by-click: the selection becomes the contained
element of smallest bbox area (the source's strict comparison keeps the
first of equal-area matches), or is cleared when no element contains the
point. -/
theorem C4_small_draw_is_click (drawMode : DrawMode) (gridRows gridCols : Nat)
    (currentType : String) (rect : BBox) (newId : String)
    (elements : List UIElement) (selected : Option String) (pos : ℚ × ℚ)
    (hw : rect.width < 10) (hh : rect.height < 10) :
    (handleMouseUpDrawing false false drawMode gridRows gridCols currentType
        (some rect) newId elements selected pos).1 = elements ∧
      (handleMouseUpDrawing false false drawMode gridRows gridCols currentType
        (some rect) newId elements selected pos).2 =
        (findClickedElement elements pos).map (fun el => el.id) ∧
      (∀ el, findClickedElement elements pos = some el →
        el ∈ elements ∧ bboxContains el.bbox pos = true ∧
          ∀ e ∈ elements, bboxContains e.bbox pos = true →
            el.bbox.width * el.bbox.height ≤ e.bbox.width * e.bbox.height) ∧
      (findClickedElement elements pos = none ↔
        ∀ e ∈ elements, bboxContains e.bbox pos = false) := by
  have hsmall : rect.width < 10 ∧ rect.height < 10 := ⟨hw, hh⟩
  refine ⟨?_, ?_, (findClickedElement_spec elements pos).1,
    (findClickedElement_spec elements pos).2⟩
  · simp [handleMouseUpDrawing, hsmall]
  · simp [handleMouseUpDrawing, hsmall, handleClick]

/-- Witness for C4 at a concrete input: a 5×5 release over `clickTarget`
outside every mode selects it and appends nothing. -/
theorem C4_small_draw_is_click_witness :
    (handleMouseUpDrawing false false DrawMode.single 1 1 "button"
        (some ⟨20, 20, 5, 5⟩) "el_new" [clickTarget] none (25, 25)).1 =
      [clickTarget] ∧
    (handleMouseUpDrawing false false DrawMode.single 1 1 "button"
        (some ⟨20, 20, 5, 5⟩) "el_new" [clickTarget] none (25, 25)).2 =
      (findClickedElement [clickTarget] (25, 25)).map (fun el => el.id) := by
  have h := C4_small_draw_is_click DrawMode.single 1 1 "button"
    ⟨20, 20, 5, 5⟩ "el_new" [clickTarget] none (25, 25)
    (by norm_num) (by norm_num)
  exact ⟨h.1, h.2.1⟩

/-- C6: the pointer-down dispatch evaluates its entry transitions in the
fixed source order with first match winning: held pan trigger (middle
button, Alt, or held Space); else grid-divider hit; else resize edge on
the selected element; else one-shot color sample; else crop mode
(crop-edge resize or crop draw); else icon placement over the selected
icon container (one-shot place, or nothing outside it); else drawing.
In particular a pointer-down over a grid divider never starts a resize,
and a held pan trigger preempts every hit test. -/
theorem C6_mousedown_priority (button1 altKey spaceHeld : Bool) (pos : ℚ × ℚ)
    (elements : List UIElement) (selectedElementId : Option String) (scale : ℚ)
    (isColorSampling isCropMode isIconPlacementMode : Bool)
    (cropRect : Option BBox) :
    ((button1 || altKey || spaceHeld) = true →
      handleMouseDown button1 altKey spaceHeld pos elements selectedElementId
        scale isColorSampling isCropMode isIconPlacementMode cropRect =
        MouseDownAction.pan) ∧
    (∀ d, (button1 || altKey || spaceHeld) = false →
      detectDivider elements scale pos = some d →
      handleMouseDown button1 altKey spaceHeld pos elements selectedElementId
        scale isColorSampling isCropMode isIconPlacementMode cropRect =
        MouseDownAction.dividerDrag d
          (match d.axis with
           | DividerAxis.col => pos.1
           | DividerAxis.row => pos.2)) ∧
    (∀ edge sid el, (button1 || altKey || spaceHeld) = false →
      detectDivider elements scale pos = none →
      selectedElementId = some sid →
      elements.find? (fun e => e.id == sid) = some el →
      detectEdge elements selectedElementId scale pos = some edge →
      handleMouseDown button1 altKey spaceHeld pos elements selectedElementId
        scale isColorSampling isCropMode isIconPlacementMode cropRect =
        MouseDownAction.resize edge pos.1 pos.2 el.bbox) ∧
    ((button1 || altKey || spaceHeld) = false →
      detectDivider elements scale pos = none →
      detectEdge elements selectedElementId scale pos = none →
      isColorSampling = true →
      handleMouseDown button1 altKey spaceHeld pos elements selectedElementId
        scale isColorSampling isCropMode isIconPlacementMode cropRect =
        MouseDownAction.colorSample) ∧
    ((button1 || altKey || spaceHeld) = false →
      detectDivider elements scale pos = none →
      detectEdge elements selectedElementId scale pos = none →
      isColorSampling = false → isCropMode = true →
      handleMouseDown button1 altKey spaceHeld pos elements selectedElementId
        scale isColorSampling isCropMode isIconPlacementMode cropRect =
        (match detectCropEdge cropRect scale pos, cropRect with
         | some ce, some r => MouseDownAction.cropResize ce pos.1 pos.2 r
         | _, _ => MouseDownAction.cropDraw pos)) ∧
    (∀ sid el, (button1 || altKey || spaceHeld) = false →
      detectDivider elements scale pos = none →
      detectEdge elements selectedElementId scale pos = none →
      isColorSampling = false → isCropMode = false →
      isIconPlacementMode = true →
      selectedElementId = some sid →
      elements.find? (fun e => e.id == sid) = some el →
      isIconContainerType el.type = true →
      handleMouseDown button1 altKey spaceHeld pos elements selectedElementId
        scale isColorSampling isCropMode isIconPlacementMode cropRect =
        (if el.bbox.x ≤ pos.1 ∧ pos.1 ≤ el.bbox.x + el.bbox.width ∧
            el.bbox.y ≤ pos.2 ∧ pos.2 ≤ el.bbox.y + el.bbox.height
         then MouseDownAction.iconPlace el.id (pos.1 - el.bbox.x)
           (pos.2 - el.bbox.y)
         else MouseDownAction.iconIgnore)) ∧
    ((button1 || altKey || spaceHeld) = false →
      detectDivider elements scale pos = none →
      detectEdge elements selectedElementId scale pos = none →
      isColorSampling = false → isCropMode = false →
      isIconPlacementMode = false →
      handleMouseDown button1 altKey spaceHeld pos elements selectedElementId
        scale isColorSampling isCropMode isIconPlacementMode cropRect =
        MouseDownAction.startDraw pos) ∧
    (∀ d edge sx sy sb, detectDivider elements scale pos = some d →
      handleMouseDown button1 altKey spaceHeld pos elements selectedElementId
        scale isColorSampling isCropMode isIconPlacementMode cropRect ≠
        MouseDownAction.resize edge sx sy sb) := by
  refine ⟨?_, ?_, ?_, ?_, ?_, ?_, ?_, ?_⟩
  · intro h
    unfold handleMouseDown
    rw [if_pos h]
  · intro d htr hdiv
    unfold handleMouseDown
    rw [if_neg (by simp [htr]), hdiv]
  · intro edge sid el htr hdiv hsel hfind hedge
    subst hsel
    unfold handleMouseDown
    rw [if_neg (by simp [htr]), hdiv, hedge]
    dsimp only
    rw [hfind]
  · intro htr hdiv hedge hcs
    unfold handleMouseDown mouseDownTail
    rw [if_neg (by simp [htr]), hdiv, hedge, if_pos hcs]
  · intro htr hdiv hedge hcs hcm
    unfold handleMouseDown mouseDownTail
    rw [if_neg (by simp [htr]), hdiv, hedge, if_neg (by simp [hcs]), if_pos hcm]
  · intro sid el htr hdiv hedge hcs hcm hip hsel hfind hicon
    subst hsel
    unfold handleMouseDown mouseDownTail
    rw [if_neg (by simp [htr]), hdiv, hedge, if_neg (by simp [hcs]),
      if_neg (by simp [hcm]), if_pos hip]
    dsimp only
    rw [hfind]
    dsimp only
    rw [if_pos hicon]
  · intro htr hdiv hedge hcs hcm hip
    unfold handleMouseDown mouseDownTail
    rw [if_neg (by simp [htr]), hdiv, hedge, if_neg (by simp [hcs]),
      if_neg (by simp [hcm]), if_neg (by simp [hip])]
  · intro d edge sx sy sb hdiv
    by_cases htr : (button1 || altKey || spaceHeld) = true
    · unfold handleMouseDown
      rw [if_pos htr]
      simp
    · have htr2 : (button1 || altKey || spaceHeld) = false := by
        simpa using htr
      unfold handleMouseDown
      rw [if_neg (by simp [htr2]), hdiv]
      simp

/-- Witness for C6 at concrete inputs: a held pan trigger dispatches to
panning, and a press at (48, 25) — within the 6-pixel threshold of the
2×2 grid element's column divider at x = 50 — dispatches to divider
dragging with `startPos = 48`. -/
theorem C6_mousedown_priority_witness :
    handleMouseDown true false false (0, 0) [] none 1 false false false none =
      MouseDownAction.pan ∧
    handleMouseDown false false false (48, 25) [gridElement] none 1 false false
        false none =
      MouseDownAction.dividerDrag ⟨"g1", DividerAxis.col, 0⟩ 48 := by
  constructor
  · exact (C6_mousedown_priority true false false (0, 0) [] none 1 false false
      false none).1 rfl
  · have hdiv : detectDivider [gridElement] 1 (48, 25) =
        some ⟨"g1", DividerAxis.col, 0⟩ := by
      norm_num [detectDivider, dividerHitForElement, getGridPositions,
        currentFractions, orOne, gridElement, List.findSome?, List.findIdx?,
        List.range, List.range.loop]
    exact (C6_mousedown_priority false false false (48, 25) [gridElement] none 1
      false false false none).2.1 ⟨"g1", DividerAxis.col, 0⟩ rfl hdiv

/-- Prefix-sum step: the sum of the first `i + 1` entries is the sum of
the first `i` plus the `i`-th entry. -/
theorem sum_take_succ_getD (l : List ℚ) (i : Nat) (h : i < l.length) :
    (l.take (i + 1)).sum = (l.take i).sum + l.getD i 0 := by
  rw [List.getD_eq_getElem l 0 h, List.take_succ, List.sum_append]
  congr 1
  simp [List.getElem?_eq_getElem h]

/-- Writing an entry's own value back is the identity. -/
theorem set_getD_self (l : List ℚ) (i : Nat) (h : i < l.length) :
    l.set i (l.getD i 0) = l := by
  apply List.ext_getElem
  · simp
  · intro n h1 h2
    rw [List.getElem_set]
    split
    · next heq => subst heq; rw [List.getD_eq_getElem l 0 h]
    · rfl

/-- C7 as stated is false: a divider-drag gesture with zero net pointer
movement can still change the fraction array, because a move event snaps
the boundary to the press position, and the press may be anywhere within
the hit threshold of the boundary.  Pressing at (48, 25) on the 2×2 grid
element hits its column divider at x = 50 (|48−50| = 2 < 6/scale); one
move event at the same point 48 — zero net movement — commits
[12/25, 13/25] in place of [1/2, 1/2]. -/
theorem C7_zero_movement_counterexample :
    detectDivider [gridElement] 1 (48, 25) =
      some ⟨"g1", DividerAxis.col, 0⟩ ∧
    dividerColGesture [gridElement] "g1" 0 [48] =
      [{ gridElement with colWidths := some [12/25, 13/25] }] ∧
    gridElement.colWidths = some [1/2, 1/2] ∧
    some [(12 : ℚ)/25, 13/25] ≠ gridElement.colWidths := by
  refine ⟨?_, ?_, by norm_num [gridElement], ?_⟩
  · norm_num [detectDivider, dividerHitForElement, getGridPositions,
      currentFractions, orOne, gridElement, List.findSome?, List.findIdx?,
      List.range, List.range.loop]
  · show (dividerMoveCol [gridElement] "g1" 0 48) = _
    norm_num [dividerMoveCol, dividerDragCol, currentFractions, orOne,
      gridElement, List.find?]
  · intro hcon
    rw [show gridElement.colWidths = some [(1 : ℚ)/2, 1/2] from rfl] at hcon
    have h2 : ((12 : ℚ)/25) = 1/2 := by
      have := List.head_eq_of_cons_eq (Option.some.inj hcon)
      exact this
    norm_num at h2

/-- C7 amended: a divider-drag gesture with no pointer-move commits
leaves the collection unchanged; and a move commit whose pointer sits
exactly on the divider's current boundary position is the identity on
the fraction array, provided the array sums to 1, the boundary is at
least 10 px from either bbox edge, and both adjacent fractions are at
least the 10 px minimum.  (Zero net movement relative to the press point
is NOT enough — see the counterexample — because the press may be up to
the hit threshold away from the boundary.) -/
theorem C7_divider_identity :
    (∀ (elements : List UIElement) (elementId : String) (index : Nat),
      dividerColGesture elements elementId index [] = elements) ∧
    (∀ (el : UIElement) (index : Nat) (ws : List ℚ),
      currentFractions el.colWidths (orOne el.cols) = ws →
      0 < el.bbox.width →
      ws.sum = 1 →
      index + 1 < orOne el.cols →
      10 ≤ (ws.take (index + 1)).sum * el.bbox.width →
      (ws.take (index + 1)).sum * el.bbox.width ≤ el.bbox.width - 10 →
      10 / el.bbox.width ≤ ws.getD index 0 →
      10 / el.bbox.width ≤ ws.getD (index + 1) 0 →
      dividerDragCol el index
        (el.bbox.x + (ws.take (index + 1)).sum * el.bbox.width) = ws) := by
  constructor
  · intro elements elementId index
    rfl
  · intro el index ws hws hw hsum hidx hlo hhi hleft hright
    have hlen : ws.length = orOne el.cols := by
      rw [← hws]; exact currentFractions_length _ _
    have hilt : index < ws.length := by omega
    have hi1lt : index + 1 < ws.length := by omega
    have hcum : (ws.take (index + 1)).sum = (ws.take index).sum + ws.getD index 0 :=
      sum_take_succ_getD ws index hilt
    simp only [dividerDragCol, hws]
    have h1 : min (el.bbox.x + (ws.take (index + 1)).sum * el.bbox.width)
        (el.bbox.x + el.bbox.width - 10) =
        el.bbox.x + (ws.take (index + 1)).sum * el.bbox.width :=
      min_eq_left (by linarith)
    have h2 : max (el.bbox.x + 10)
        (el.bbox.x + (ws.take (index + 1)).sum * el.bbox.width) =
        el.bbox.x + (ws.take (index + 1)).sum * el.bbox.width :=
      max_eq_right (by linarith)
    rw [h1, h2]
    have h3 : (el.bbox.x + (ws.take (index + 1)).sum * el.bbox.width -
        el.bbox.x) / el.bbox.width = (ws.take (index + 1)).sum := by
      field_simp
    rw [h3, hcum]
    have h4 : max (10 / el.bbox.width)
        ((ws.take index).sum + ws.getD index 0 - (ws.take index).sum) =
        ws.getD index 0 := by
      rw [add_sub_cancel_left]
      exact max_eq_right hleft
    rw [h4]
    have h5 : max (10 / el.bbox.width)
        (ws.getD index 0 + ws.getD (index + 1) 0 - ws.getD index 0) =
        ws.getD (index + 1) 0 := by
      rw [add_sub_cancel_left]
      exact max_eq_right hright
    rw [h5, set_getD_self ws index hilt, set_getD_self ws (index + 1) hi1lt,
      hsum]
    simp

/-- Witness for C7 at a concrete input: a move at exactly x = 50 (the 2×2
grid element's column boundary) commits the unchanged halves. -/
theorem C7_divider_identity_witness :
    dividerColGesture [gridElement] "g1" 0 [] = [gridElement] ∧
    dividerDragCol gridElement 0 50 = [1/2, 1/2] := by
  constructor
  · exact C7_divider_identity.1 [gridElement] "g1" 0
  · have h := C7_divider_identity.2 gridElement 0 [1/2, 1/2]
      (by norm_num [gridElement, currentFractions, orOne])
      (by norm_num [gridElement])
      (by norm_num)
      (by norm_num [gridElement, orOne])
      (by norm_num [gridElement])
      (by norm_num [gridElement])
      (by norm_num [gridElement, List.getD])
      (by norm_num [gridElement, List.getD])
    have heq : gridElement.bbox.x +
        (([(1 : ℚ)/2, 1/2].take (0 + 1)).sum * gridElement.bbox.width) = 50 := by
      norm_num [gridElement]
    rw [← heq]
    exact h

/-- A 1×3 grid element whose column divider 0 is dragged in the C5
scenario. -/
def liveElA : UIElement :=
  { id := "d1", type := "grid", bbox := ⟨0, 0, 100, 100⟩,
    rows := some 1, cols := some 3, colWidths := some [1/3, 1/3, 1/3] }

/-- The same element after an external mid-gesture edit of `colWidths`
only. -/
def liveElB : UIElement :=
  { liveElA with colWidths := some [1/5, 1/5, 3/5] }

/-- C5 as stated is false for divider drags: the session stores only
`{elementId, type, index, startPos}` — no fraction-array snapshot — and
every move re-reads the live element, so two runs of the same gesture
(same element id, divider index, press point and pointer position) that
differ only in an external mid-gesture edit of the target's `colWidths`
commit different geometry. -/
theorem C5_snapshot_counterexample :
    liveElB = { liveElA with colWidths := some [1/5, 1/5, 3/5] } ∧
    (dividerMoveCol [liveElA] "d1" 0 50).map (fun e => e.colWidths) =
      [some [1/2, 1/6, 1/3]] ∧
    (dividerMoveCol [liveElB] "d1" 0 50).map (fun e => e.colWidths) =
      [some [5/12, 1/12, 1/2]] ∧
    (dividerMoveCol [liveElA] "d1" 0 50).map (fun e => e.colWidths) ≠
      (dividerMoveCol [liveElB] "d1" 0 50).map (fun e => e.colWidths) := by
  have hA : (dividerMoveCol [liveElA] "d1" 0 50).map (fun e => e.colWidths) =
      [some [1/2, 1/6, 1/3]] := by
    norm_num [dividerMoveCol, dividerDragCol, currentFractions, orOne,
      liveElA, List.find?, List.getD]
  have hB : (dividerMoveCol [liveElB] "d1" 0 50).map (fun e => e.colWidths) =
      [some [5/12, 1/12, 1/2]] := by
    norm_num [dividerMoveCol, dividerDragCol, currentFractions, orOne,
      liveElA, liveElB, List.find?, List.getD]
  refine ⟨rfl, hA, hB, ?_⟩
  rw [hA, hB]
  intro hcon
  have h2 := List.head_eq_of_cons_eq hcon
  have h3 := Option.some.inj h2
  have h4 := List.head_eq_of_cons_eq h3
  norm_num at h4

/-- C5 amended: resize pointer-move commits are a function of the
start-of-gesture snapshot and the live pointer only — the committed bbox
equals `resizeCommit` of the session's snapshot and the pointer delta,
for any collection content, so two runs over collections differing in an
external mid-gesture edit commit the same bbox.  Divider-drag commits
instead read the LIVE element: the committed array is
`dividerDragCol`/`dividerDragRow` of whatever element the collection
currently holds under the session's id. -/
theorem C5_snapshot_discipline :
    (∀ (sess : ResizeSession) (sid : String) (elements : List UIElement)
        (pos : ℚ × ℚ) (imgW imgH : ℚ) (el : UIElement),
      el ∈ resizeMove sess sid elements pos imgW imgH → el.id = sid →
      el.bbox = resizeCommit sess.edge sess.bbox (pos.1 - sess.startX)
        (pos.2 - sess.startY) imgW imgH) ∧
    (∀ (sess : ResizeSession) (sid : String) (els1 els2 : List UIElement)
        (pos : ℚ × ℚ) (imgW imgH : ℚ) (e1 e2 : UIElement),
      e1 ∈ resizeMove sess sid els1 pos imgW imgH → e1.id = sid →
      e2 ∈ resizeMove sess sid els2 pos imgW imgH → e2.id = sid →
      e1.bbox = e2.bbox) ∧
    (∀ (elements : List UIElement) (elementId : String) (index : Nat)
        (posX : ℚ) (el e : UIElement),
      elements.find? (fun x => x.id == elementId) = some el →
      e ∈ dividerMoveCol elements elementId index posX → e.id = elementId →
      e.colWidths = some (dividerDragCol el index posX)) := by
  have key : ∀ (sess : ResizeSession) (sid : String) (elements : List UIElement)
      (pos : ℚ × ℚ) (imgW imgH : ℚ) (el : UIElement),
      el ∈ resizeMove sess sid elements pos imgW imgH → el.id = sid →
      el.bbox = resizeCommit sess.edge sess.bbox (pos.1 - sess.startX)
        (pos.2 - sess.startY) imgW imgH := by
    intro sess sid elements pos imgW imgH el hmem hid
    simp only [resizeMove, List.mem_map] at hmem
    obtain ⟨e, he, hfe⟩ := hmem
    by_cases hbe : (e.id == sid) = true
    · rw [if_pos hbe] at hfe
      rw [← hfe]
    · rw [if_neg hbe] at hfe
      exfalso
      apply hbe
      rw [hfe, hid]
      simp
  refine ⟨key, ?_, ?_⟩
  · intro sess sid els1 els2 pos imgW imgH e1 e2 h1 hid1 h2 hid2
    rw [key sess sid els1 pos imgW imgH e1 h1 hid1,
      key sess sid els2 pos imgW imgH e2 h2 hid2]
  · intro elements elementId index posX el e hfind hmem hid
    simp only [dividerMoveCol, hfind, List.mem_map] at hmem
    obtain ⟨x, hx, hfx⟩ := hmem
    by_cases hbe : (x.id == elementId) = true
    · rw [if_pos hbe] at hfx
      rw [← hfx]
    · rw [if_neg hbe] at hfx
      exfalso
      apply hbe
      rw [hfx, hid]
      simp

/-- Witness for C5 at a concrete input: the element committed by a
concrete resize move carries exactly the snapshot-and-pointer bbox. -/
theorem C5_snapshot_discipline_witness :
    ({ clickTarget with
        bbox := resizeCommit ResizeEdge.e ⟨0, 0, 20, 20⟩ (5 - 0) (0 - 0)
          100 100 } : UIElement).bbox =
      resizeCommit ResizeEdge.e ⟨0, 0, 20, 20⟩ (5 - 0) (0 - 0) 100 100 :=
  C5_snapshot_discipline.1 ⟨ResizeEdge.e, 0, 0, ⟨0, 0, 20, 20⟩⟩ "t1"
    [clickTarget] (5, 0) 100 100 _ (by simp [resizeMove, clickTarget]) rfl

/-- C8 as stated is false: `screenToImage` rounds unconditionally, and
the resize delta `dx = pos.x − resizeStart.x` is computed from the
rounded outputs, not from continuous coordinates.  At scale 1 and zero
offsets, a pointer travel from screen x = 0 to x = 10.6 gives the code
delta 11, where the continuous delta is 10.6. -/
theorem C8_rounding_counterexample :
    screenToImage 1 0 0 0 0 (53/5) 0 = (11, 0) ∧
    screenToImageCont 1 0 0 0 0 (53/5) 0 = (53/5, 0) ∧
    resizeGestureDx 1 0 0 0 0 0 (53/5) = 11 ∧
    resizeGestureDxCont 1 0 0 0 0 0 (53/5) = 53/5 ∧
    resizeGestureDx 1 0 0 0 0 0 (53/5) ≠
      resizeGestureDxCont 1 0 0 0 0 0 (53/5) := by
  refine ⟨?_, ?_, ?_, ?_, ?_⟩
  · norm_num [screenToImage, jsRound]
  · norm_num [screenToImageCont]
  · norm_num [resizeGestureDx, screenToImage, jsRound]
  · norm_num [resizeGestureDxCont, screenToImageCont]
  · norm_num [resizeGestureDx, resizeGestureDxCont, screenToImage,
      screenToImageCont, jsRound]

/-- C8 amended: the screen-to-image conversion rounds both coordinates to
the nearest integer for every use; in-gesture deltas are differences of
the rounded integer coordinates (hence themselves integers), not
continuous values. -/
theorem C8_rounding (scale oX oY rL rT sX sY : ℚ) :
    screenToImage scale oX oY rL rT sX sY =
      ((jsRound ((sX - rL - oX) / scale) : ℚ),
       (jsRound ((sY - rT - oY) / scale) : ℚ)) ∧
    (∃ kx ky : ℤ, screenToImage scale oX oY rL rT sX sY = ((kx : ℚ), (ky : ℚ))) ∧
    (∀ startX moveX : ℚ, ∃ k : ℤ,
      resizeGestureDx scale oX oY rL rT startX moveX = (k : ℚ)) := by
  refine ⟨rfl, ⟨jsRound ((sX - rL - oX) / scale),
    jsRound ((sY - rT - oY) / scale), rfl⟩, ?_⟩
  intro startX moveX
  refine ⟨jsRound ((moveX - rL - oX) / scale) -
    jsRound ((startX - rL - oX) / scale), ?_⟩
  simp only [resizeGestureDx, screenToImage]
  push_cast
  ring

/-- C9: every geometry mutation the core commits touches only the
mutated geometry field of the target and nothing else.  Pointwise over
the collection: a resize move maps each entry either to itself (id not
the target's) or to a bbox-only update; a column-divider move likewise
with a `colWidths`-only update (rows symmetric); the record updates
preserve every other field (`type`, `text`, `color`, alignment, icons,
`parentId`, ...); and a mouse-up in the drawing state never modifies the
existing elements — the collection it emits starts with them unchanged. -/
theorem C9_geometry_mutation_frame :
    (∀ (sess : ResizeSession) (sid : String) (elements : List UIElement)
        (pos : ℚ × ℚ) (imgW imgH : ℚ) (i : Nat) (e : UIElement),
      elements[i]? = some e →
      (resizeMove sess sid elements pos imgW imgH)[i]? =
        some (if e.id == sid
          then { e with bbox := (resizeCommit sess.edge sess.bbox
            (pos.1 - sess.startX) (pos.2 - sess.startY) imgW imgH) }
          else e)) ∧
    (∀ (sess : ResizeSession) (sid : String) (elements : List UIElement)
        (pos : ℚ × ℚ) (imgW imgH : ℚ) (i : Nat) (e : UIElement),
      elements[i]? = some e → e.id ≠ sid →
      (resizeMove sess sid elements pos imgW imgH)[i]? = some e) ∧
    (∀ (e : UIElement) (b : BBox),
      ({ e with bbox := b } : UIElement).id = e.id ∧
      ({ e with bbox := b } : UIElement).type = e.type ∧
      ({ e with bbox := b } : UIElement).text = e.text ∧
      ({ e with bbox := b } : UIElement).rows = e.rows ∧
      ({ e with bbox := b } : UIElement).cols = e.cols ∧
      ({ e with bbox := b } : UIElement).rowHeights = e.rowHeights ∧
      ({ e with bbox := b } : UIElement).colWidths = e.colWidths ∧
      ({ e with bbox := b } : UIElement).parentId = e.parentId ∧
      ({ e with bbox := b } : UIElement).icons = e.icons ∧
      ({ e with bbox := b } : UIElement).color = e.color ∧
      ({ e with bbox := b } : UIElement).textAlign = e.textAlign ∧
      ({ e with bbox := b } : UIElement).loadingImage = e.loadingImage ∧
      ({ e with bbox := b } : UIElement).waitTime = e.waitTime ∧
      ({ e with bbox := b } : UIElement).iconWidth = e.iconWidth ∧
      ({ e with bbox := b } : UIElement).iconHeight = e.iconHeight) ∧
    (∀ (elements : List UIElement) (elementId : String) (index : Nat)
        (posX : ℚ) (el : UIElement) (i : Nat) (e : UIElement),
      elements.find? (fun x => x.id == elementId) = some el →
      elements[i]? = some e →
      (dividerMoveCol elements elementId index posX)[i]? =
        some (if e.id == elementId
          then { e with colWidths := some (dividerDragCol el index posX) }
          else e)) ∧
    (∀ (elements : List UIElement) (elementId : String) (index : Nat)
        (posY : ℚ) (el : UIElement) (i : Nat) (e : UIElement),
      elements.find? (fun x => x.id == elementId) = some el →
      elements[i]? = some e →
      (dividerMoveRow elements elementId index posY)[i]? =
        some (if e.id == elementId
          then { e with rowHeights := some (dividerDragRow el index posY) }
          else e)) ∧
    (∀ (e : UIElement) (ws : Option (List ℚ)),
      ({ e with colWidths := ws } : UIElement).id = e.id ∧
      ({ e with colWidths := ws } : UIElement).type = e.type ∧
      ({ e with colWidths := ws } : UIElement).text = e.text ∧
      ({ e with colWidths := ws } : UIElement).bbox = e.bbox ∧
      ({ e with colWidths := ws } : UIElement).rows = e.rows ∧
      ({ e with colWidths := ws } : UIElement).cols = e.cols ∧
      ({ e with colWidths := ws } : UIElement).rowHeights = e.rowHeights ∧
      ({ e with colWidths := ws } : UIElement).parentId = e.parentId ∧
      ({ e with colWidths := ws } : UIElement).icons = e.icons ∧
      ({ e with colWidths := ws } : UIElement).color = e.color ∧
      ({ e with colWidths := ws } : UIElement).textAlign = e.textAlign ∧
      ({ e with colWidths := ws } : UIElement).loadingImage = e.loadingImage ∧
      ({ e with colWidths := ws } : UIElement).waitTime = e.waitTime ∧
      ({ e with colWidths := ws } : UIElement).iconWidth = e.iconWidth ∧
      ({ e with colWidths := ws } : UIElement).iconHeight = e.iconHeight) ∧
    (∀ (isCropMode isIconPlacementMode : Bool) (drawMode : DrawMode)
        (gridRows gridCols : Nat) (currentType : String)
        (currentRect : Option BBox) (newId : String)
        (elements : List UIElement) (selected : Option String) (pos : ℚ × ℚ),
      (handleMouseUpDrawing isCropMode isIconPlacementMode drawMode gridRows
        gridCols currentType currentRect newId elements selected
        pos).1.take elements.length = elements) := by
  have hresize : ∀ (sess : ResizeSession) (sid : String)
      (elements : List UIElement) (pos : ℚ × ℚ) (imgW imgH : ℚ) (i : Nat)
      (e : UIElement),
      elements[i]? = some e →
      (resizeMove sess sid elements pos imgW imgH)[i]? =
        some (if e.id == sid
          then { e with bbox := (resizeCommit sess.edge sess.bbox
            (pos.1 - sess.startX) (pos.2 - sess.startY) imgW imgH) }
          else e) := by
    intro sess sid elements pos imgW imgH i e he
    simp only [resizeMove, List.getElem?_map, he]
    rfl
  refine ⟨hresize, ?_, ?_, ?_, ?_, ?_, ?_⟩
  · intro sess sid elements pos imgW imgH i e he hne
    have hbe : ¬ ((e.id == sid) = true) := by simp [hne]
    rw [hresize sess sid elements pos imgW imgH i e he, if_neg hbe]
  · intro e b
    exact ⟨rfl, rfl, rfl, rfl, rfl, rfl, rfl, rfl, rfl, rfl, rfl, rfl, rfl,
      rfl, rfl⟩
  · intro elements elementId index posX el i e hfind he
    simp only [dividerMoveCol, hfind, List.getElem?_map, he]
    rfl
  · intro elements elementId index posY el i e hfind he
    simp only [dividerMoveRow, hfind, List.getElem?_map, he]
    rfl
  · intro e ws
    exact ⟨rfl, rfl, rfl, rfl, rfl, rfl, rfl, rfl, rfl, rfl, rfl, rfl, rfl,
      rfl, rfl⟩
  · intro isCropMode isIconPlacementMode drawMode gridRows gridCols currentType
      currentRect newId elements selected pos
    unfold handleMouseUpDrawing
    split
    · exact List.take_length elements
    · split
      · exact List.take_length elements
      · split
        · exact List.take_length elements
        · split
          · split
            · exact List.take_left elements _
            · exact List.take_left elements _
          · exact List.take_left elements _

/-- Witness for C9 at a concrete input: a resize move targeting a
different id leaves the sole element untouched (the `else` branch of the
pointwise description). -/
theorem C9_geometry_mutation_frame_witness :
    (resizeMove ⟨ResizeEdge.e, 0, 0, ⟨0, 0, 20, 20⟩⟩ "other" [clickTarget]
        (5, 0) 100 100)[0]? =
      some (if clickTarget.id == "other"
        then { clickTarget with bbox := (resizeCommit ResizeEdge.e
          ⟨0, 0, 20, 20⟩ (5 - 0) (0 - 0) 100 100) }
        else clickTarget) :=
  C9_geometry_mutation_frame.1 ⟨ResizeEdge.e, 0, 0, ⟨0, 0, 20, 20⟩⟩ "other"
    [clickTarget] (5, 0) 100 100 0 clickTarget rfl

/-- C10 (implicit): a completed draw whose release rectangle is 5 wide and
50 tall (only one dimension under the 10-unit minimum) appends a new
element whose bbox keeps width 5 — the click fallback requires both
dimensions under 10, so drawn elements are not guaranteed the minimum
size. -/
theorem C10_thin_draw_creates_element :
    (handleMouseUpDrawing false false DrawMode.single 1 1 "button"
        (some ⟨0, 0, 5, 50⟩) "el_1" [] none (0, 0)).1 =
      [{ id := "el_1", type := "button", bbox := ⟨0, 0, 5, 50⟩ }] ∧
    (handleMouseUpDrawing false false DrawMode.single 1 1 "button"
        (some ⟨0, 0, 5, 50⟩) "el_1" [] none (0, 0)).2 = some "el_1" ∧
    ({ id := "el_1", type := "button", bbox := ⟨0, 0, 5, 50⟩ } :
        UIElement).bbox.width < 10 := by
  refine ⟨?_, ?_, by norm_num⟩
  · norm_num [handleMouseUpDrawing]
  · norm_num [handleMouseUpDrawing]

end Markup
